import Mathlib

/-!
Verification of the route-risk / accident-registry system.

Shallow embedding conventions:
* Python floats are modelled as rationals (`ℚ`).
* Timestamps (`datetime`) are modelled as rational minutes on one global
  clock; `timedelta(hours := 2)` becomes the constant `120` minutes.
* The transcendental great-circle distance `haversine_distance` (it uses
  `sin`, `cos`, `asin`, `sqrt`) is modelled as an abstract distance
  function parameter `hv : ℚ → ℚ → ℚ → ℚ → ℚ`; every property proved here
  is quantified over it, and no claim depends on its internals.
* Persistence (`_load_accidents` / `_save_accidents`) is modelled by
  passing the stored list of accidents explicitly: a method that loads,
  transforms and saves becomes a function from the stored list (plus the
  current clock) to the new stored list and/or the returned value.
-/

namespace AccidentSystem

/-- The type of the abstract haversine-distance function
(`haversine_distance(lat1, lon1, lat2, lon2)`). -/
abbrev Hv : Type := ℚ → ℚ → ℚ → ℚ → ℚ

/-- Python `round(x, 2)`: round to two decimal places.  (Python uses
round-half-to-even on binary floats at exact ties; no claim below
exercises a tie, so ordinary rounding to nearest is a faithful model.) -/
def round2 (x : ℚ) : ℚ := (round (x * 100) : ℚ) / 100

/-- One stored accident report (the dict created by
`AccidentReporter.report_accident`).  `timestamp` is in minutes;
`expires_at` is derived (`timestamp + 120`) and therefore not stored
separately. -/
structure Accident where
  id : String
  timestamp : ℚ
  latitude : ℚ
  longitude : ℚ
  severity : String
  upvotes : ℕ
  downvotes : ℕ
  verified : Bool
deriving DecidableEq

/-- `AccidentReporter.expiry_hours = 2`, in minutes. -/
def expiry_minutes : ℚ := 120

/-- `AccidentReporter._clean_expired`: keep accidents whose timestamp is
strictly after `now - 2 hours`. -/
def clean_expired (accidents : List Accident) (now : ℚ) : List Accident :=
  accidents.filter (fun acc => now - expiry_minutes < acc.timestamp)

/-- `AccidentReporter.get_active_accidents`: load, evict expired, save the
cleaned list ("clean on read") and return it.  In the pure model the
returned list is also the new stored state. -/
def get_active_accidents (accidents : List Accident) (now : ℚ) : List Accident :=
  clean_expired accidents now

/-- `AccidentReporter._point_to_segment_distance`: project the point onto
the segment in the flat lat/lon plane, clamp `t` to `[0, 1]`, then return
the haversine distance to the clamped closest point; a degenerate segment
falls back to point-to-point distance. -/
def point_to_segment_distance (hv : Hv) (px py x1 y1 x2 y2 : ℚ) : ℚ :=
  let dx := px - x1
  let dy := py - y1
  let sx := x2 - x1
  let sy := y2 - y1
  if sx = 0 ∧ sy = 0 then
    hv px py x1 y1
  else
    let t := max 0 (min 1 ((dx * sx + dy * sy) / (sx * sx + sy * sy)))
    hv px py (x1 + t * sx) (y1 + t * sy)

/-- The consecutive-waypoint pairs (`for i in range(len(waypoints) - 1)`). -/
def legsOf (waypoints : List (ℚ × ℚ)) : List ((ℚ × ℚ) × (ℚ × ℚ)) :=
  waypoints.zip waypoints.tail

/-- The distance computed in the inner loop of `get_accidents_on_route`:
point-to-segment distance from the accident to one leg. -/
def leg_route_dist (hv : Hv) (acc : Accident) (leg : (ℚ × ℚ) × (ℚ × ℚ)) : ℚ :=
  point_to_segment_distance hv acc.latitude acc.longitude
    leg.1.1 leg.1.2 leg.2.1 leg.2.2

/-- The inner loop of `get_accidents_on_route` for one accident: scan the
legs in order and return the (rounded) distance of the FIRST leg within
the buffer, breaking out of the loop; `none` when no leg matches. -/
def first_leg_match (hv : Hv) (buffer_km : ℚ) (acc : Accident) :
    List ((ℚ × ℚ) × (ℚ × ℚ)) → Option ℚ
  | [] => none
  | leg :: rest =>
    let d := leg_route_dist hv acc leg
    if d ≤ buffer_km then some (round2 d) else first_leg_match hv buffer_km acc rest

/-- `AccidentReporter.get_accidents_on_route`: every active accident whose
first matching leg is within `buffer_km` (default `0.5`), annotated with
that leg's rounded distance (`distance_from_route_km`). -/
def get_accidents_on_route (accidents : List Accident) (now : ℚ) (hv : Hv)
    (waypoints : List (ℚ × ℚ)) (buffer_km : ℚ := 0.5) : List (Accident × ℚ) :=
  (get_active_accidents accidents now).filterMap (fun acc =>
    (first_leg_match hv buffer_km acc (legsOf waypoints)).map (fun d => (acc, d)))

/-- The severity table of `get_accident_impact_multiplier`. -/
def severity_weights : List (String × ℚ) :=
  [("minor", 1.05), ("moderate", 1.15), ("severe", 1.30), ("fatal", 1.50)]

/-- The time-decay factor of `get_accident_impact_multiplier`
(`age_minutes` = `now - timestamp`). -/
def time_factor (age_minutes : ℚ) : ℚ :=
  if age_minutes ≤ 30 then 1 else if age_minutes ≤ 60 then 0.8 else 0.5

/-- The per-accident additive impact term of
`get_accident_impact_multiplier`:
`(base_weight - 1.0) * time_factor * verification_factor`. -/
def accident_impact (now : ℚ) (acc : Accident) : ℚ :=
  let base_weight := (severity_weights.lookup acc.severity).getD 1.10
  let tf := time_factor (now - acc.timestamp)
  let vf := if acc.verified then 1.2 else 1
  (base_weight - 1) * tf * vf

/-- The aggregation step of `get_accident_impact_multiplier` applied to an
already-matched accident list: `1.0` when empty, otherwise the running sum
starting at `1.0`, capped at `2.0`. -/
def multiplier_of_matches (now : ℚ) (matched : List (Accident × ℚ)) : ℚ :=
  if matched = [] then 1
  else min 2 (matched.foldl (fun t p => t + accident_impact now p.1) 1)

/-- `AccidentReporter.get_accident_impact_multiplier`: match accidents on
the route with a 0.5 km buffer, then aggregate. -/
def get_accident_impact_multiplier (accidents : List Accident) (now : ℚ)
    (hv : Hv) (waypoints : List (ℚ × ℚ)) : ℚ :=
  multiplier_of_matches now (get_accidents_on_route accidents now hv waypoints 0.5)

/-- The per-accident mutation step of `AccidentReporter.vote_accident`:
increment the matching counter, then auto-verify when `upvotes >= 3`. -/
def apply_vote (acc : Accident) (vote_type : String) : Accident :=
  let acc :=
    if vote_type == "up" then { acc with upvotes := acc.upvotes + 1 }
    else if vote_type == "down" then { acc with downvotes := acc.downvotes + 1 }
    else acc
  if 3 ≤ acc.upvotes ∧ acc.verified = false then { acc with verified := true } else acc

/-- `AccidentReporter.vote_accident`: find the first accident with the
given id, apply the vote to it in place, auto-remove every accident with
that id when the mutated report has `downvotes >= 5`, save, and report
success; ids that are not stored leave the store unchanged and report
failure.  (Python filters the whole list on removal; entries before the
first match cannot carry the id, so consing them back unfiltered is
equivalent.) -/
def vote_accident (accidents : List Accident) (accident_id vote_type : String) :
    List Accident × Bool :=
  match accidents with
  | [] => ([], false)
  | acc :: rest =>
    if acc.id == accident_id then
      let acc2 := apply_vote acc vote_type
      if 5 ≤ acc2.downvotes then
        ((acc2 :: rest).filter (fun a => !(a.id == accident_id)), true)
      else (acc2 :: rest, true)
    else
      let r := vote_accident rest accident_id vote_type
      (acc :: r.1, r.2)

/-- Reports reachable through the registry API: a report only reaches
`upvotes >= 3` through an up-vote that immediately verifies it, and is
deleted the moment `downvotes` reaches 5. -/
def ReportWF (acc : Accident) : Prop :=
  (3 ≤ acc.upvotes → acc.verified = true) ∧ acc.downvotes < 5

/-- One entry of the vehicle table `VEHICLE_TYPES` in `app.py` (the `name`
and `icon` fields are presentation only and omitted). -/
structure VehicleInfo where
  risk_multiplier : ℚ
  speed_factor : ℚ
deriving DecidableEq

/-- The static vehicle table `VEHICLE_TYPES`. -/
def VEHICLE_TYPES : List (String × VehicleInfo) :=
  [("car", ⟨1, 1⟩), ("bike", ⟨1.8, 0.85⟩), ("auto", ⟨1.5, 0.75⟩),
   ("bus", ⟨1.2, 0.80⟩), ("truck", ⟨1.3, 0.70⟩)]

/-- `get_vehicle_multiplier` / `VEHICLE_TYPES.get(vt.lower(), VEHICLE_TYPES['car'])`:
look the vehicle type up and fall back to the `car` entry `⟨1, 1⟩` when
unknown.  The Python code first lowercases its argument; the model takes
the already-lowercased string (no claim concerns case-insensitivity). -/
def vehicle_lookup (vehicle_type : String) : VehicleInfo :=
  (VEHICLE_TYPES.lookup vehicle_type).getD ⟨1, 1⟩

/-- The static weather table `weather_weights` in `calculate_route_risk`
(`app.py` line 190). -/
def weather_weights : List (String × ℚ) :=
  [("Clear", 1), ("Rain", 1.25), ("Fog", 1.35), ("Heavy Rain", 1.6)]

/-- `weather_weights.get(category, 1.0)` (`app.py` line 191). -/
def weather_mult (weather_category : String) : ℚ :=
  (weather_weights.lookup weather_category).getD 1

/-- A row of `road_segments.csv` (`segments_df`). -/
structure Segment where
  segment_id : String
  road_name : String
  start_lat : ℚ
  start_lon : ℚ
  end_lat : ℚ
  end_lon : ℚ
deriving DecidableEq

/-- The midpoint of a segment used by the nearest-segment scan. -/
def seg_mid (s : Segment) : ℚ × ℚ :=
  ((s.start_lat + s.end_lat) / 2, (s.start_lon + s.end_lon) / 2)

/-- The nearest-segment linear scan of `calculate_route_risk`: running
minimum of haversine distance from the leg midpoint to each segment
midpoint, strict `<`, so the first of equally-near segments wins. -/
def nearest_segment (hv : Hv) (mid : ℚ × ℚ) (segments : List Segment) :
    Option (ℚ × Segment) :=
  segments.foldl (fun best seg =>
    let d := hv mid.1 mid.2 (seg_mid seg).1 (seg_mid seg).2
    match best with
    | none => some (d, seg)
    | some (md, ns) => if d < md then some (d, seg) else some (md, ns)) none

/-- `segment_risk_scores.get(id, {}).get('risk_score', 40)`: the stored
base risk of a segment, defaulting to 40. -/
def base_risk_of (risk_scores : List (String × ℚ)) (seg : Segment) : ℚ :=
  (risk_scores.lookup seg.segment_id).getD 40

/-- One iteration of the leg loop of `calculate_route_risk`, threading the
`(total_risk, total_dist, risk_details)` state.  The leg length is the
haversine length `or 0.001` (Python `or`: substitute exactly when the
length is `0.0`).  A nearest segment contributes
`min(100, base_risk * combined_mult)` weighted by leg length and appends a
`(road_name, rounded adjusted risk)` detail; with no segment at all the
leg contributes `40 * combined_mult * leg_dist` with no cap and no
detail. -/
def leg_step (hv : Hv) (segments : List Segment) (risk_scores : List (String × ℚ))
    (combined_mult : ℚ) (st : ℚ × ℚ × List (String × ℚ))
    (leg : (ℚ × ℚ) × (ℚ × ℚ)) : ℚ × ℚ × List (String × ℚ) :=
  let (p, q) := leg
  let mid := ((p.1 + q.1) / 2, (p.2 + q.2) / 2)
  let d0 := hv p.1 p.2 q.1 q.2
  let leg_dist := if d0 = 0 then 0.001 else d0
  match nearest_segment hv mid segments with
  | some (_, seg) =>
    let adjusted := min 100 (base_risk_of risk_scores seg * combined_mult)
    (st.1 + adjusted * leg_dist, st.2.1 + leg_dist,
     st.2.2 ++ [(seg.road_name, round2 adjusted)])
  | none => (st.1 + 40 * combined_mult * leg_dist, st.2.1 + leg_dist, st.2.2)

/-- The whole leg loop of `calculate_route_risk`, from the initial state
`(0.0, 0.0, [])`. -/
def route_risk_fold (hv : Hv) (segments : List Segment)
    (risk_scores : List (String × ℚ)) (combined_mult : ℚ)
    (waypoints : List (ℚ × ℚ)) : ℚ × ℚ × List (String × ℚ) :=
  (legsOf waypoints).foldl (leg_step hv segments risk_scores combined_mult) (0, 0, [])

/-- The detail entry a single leg contributes to `risk_details`
(`none` exactly when the segment table is empty). -/
def leg_detail (hv : Hv) (segments : List Segment) (risk_scores : List (String × ℚ))
    (combined_mult : ℚ) (leg : (ℚ × ℚ) × (ℚ × ℚ)) : Option (String × ℚ) :=
  let (p, q) := leg
  let mid := ((p.1 + q.1) / 2, (p.2 + q.2) / 2)
  match nearest_segment hv mid segments with
  | some (_, seg) =>
    some (seg.road_name, round2 (min 100 (base_risk_of risk_scores seg * combined_mult)))
  | none => none

/-- The leg length used by `calculate_route_risk`:
`haversine_distance(...) or 0.001` (Python `or` substitutes exactly when
the distance is `0.0`). -/
def leg_length (hv : Hv) (leg : (ℚ × ℚ) × (ℚ × ℚ)) : ℚ :=
  if hv leg.1.1 leg.1.2 leg.2.1 leg.2.2 = 0 then 0.001
  else hv leg.1.1 leg.1.2 leg.2.1 leg.2.2

/-- The effective per-distance risk a leg contributes in
`calculate_route_risk`: `min(100, base_risk * combined_mult)` when a
nearest segment exists, the uncapped `40 * combined_mult` otherwise. -/
def leg_adjusted_risk (hv : Hv) (segments : List Segment)
    (risk_scores : List (String × ℚ)) (combined_mult : ℚ)
    (leg : (ℚ × ℚ) × (ℚ × ℚ)) : ℚ :=
  match nearest_segment hv ((leg.1.1 + leg.2.1) / 2, (leg.1.2 + leg.2.2) / 2) segments with
  | some (_, seg) => min 100 (base_risk_of risk_scores seg * combined_mult)
  | none => 40 * combined_mult

/-- The result dict of `calculate_route_risk` (fields the claims are
about). -/
structure RouteRiskResult where
  risk_score : ℚ
  accident_multiplier : ℚ
  vehicle_multiplier : ℚ
  weather_multiplier : ℚ
  risk_details : List (String × ℚ)
deriving DecidableEq

/-- `calculate_route_risk`: combine the accident, vehicle and weather
multipliers, run the leg loop and produce the distance-weighted average
risk `round(total_risk / max(total_dist, 0.001), 2)` plus the full detail
list. -/
def calculate_route_risk (hv : Hv) (segments : List Segment)
    (risk_scores : List (String × ℚ)) (accidents : List Accident) (now : ℚ)
    (waypoints : List (ℚ × ℚ)) (vehicle_type weather_category : String) :
    RouteRiskResult :=
  let accident_mult := get_accident_impact_multiplier accidents now hv waypoints
  let vehicle_mult := (vehicle_lookup vehicle_type).risk_multiplier
  let wm := weather_mult weather_category
  let combined_mult := accident_mult * vehicle_mult * wm
  let trip := route_risk_fold hv segments risk_scores combined_mult waypoints
  { risk_score := round2 (trip.1 / max trip.2.1 0.001)
    accident_multiplier := accident_mult
    vehicle_multiplier := vehicle_mult
    weather_multiplier := wm
    risk_details := trip.2.2 }

/-- The contributing-segment list a route entry of `get_safe_routes`
serves: `risk_result['risk_details'][:5]` (`app.py` line 401). -/
def served_risk_details (r : RouteRiskResult) : List (String × ℚ) :=
  r.risk_details.take 5

/-- Python `int(x)` (truncation toward zero; the quantities it is applied
to in `get_route_metadata` are nonnegative, where it agrees with floor). -/
def py_int (x : ℚ) : ℤ := if x < 0 then ⌈x⌉ else ⌊x⌋

/-- The raw leg-length sum of `get_route_metadata` (before rounding). -/
def total_route_distance (hv : Hv) (waypoints : List (ℚ × ℚ)) : ℚ :=
  ((legsOf waypoints).map (fun l => hv l.1.1 l.1.2 l.2.1 l.2.2)).sum

/-- `get_route_metadata`: `(distance_km, time_minutes)`.  Note the time is
computed from the UNROUNDED distance sum; only the reported `distance_km`
is rounded to two decimals. -/
def get_route_metadata (hv : Hv) (waypoints : List (ℚ × ℚ)) (risk_score : ℚ)
    (vehicle_type : String) : ℚ × ℤ :=
  let total_distance := total_route_distance hv waypoints
  let base_time_minutes := py_int (total_distance / 30 * 60)
  let sf := (vehicle_lookup vehicle_type).speed_factor
  let time_minutes := py_int ((base_time_minutes : ℚ) / sf)
  let time_minutes :=
    if risk_score > 60 then py_int ((time_minutes : ℚ) * 1.15) else time_minutes
  (round2 total_distance, time_minutes)

/-- Stated from the spec's words (§4.2, additive-decay model) for
comparison with the code: the severity-weight table with unknown
severities mapping to 1.10. -/
def spec_severity_weight (sev : String) : ℚ :=
  if sev = "minor" then 1.05
  else if sev = "moderate" then 1.15
  else if sev = "severe" then 1.30
  else if sev = "fatal" then 1.50
  else 1.10

/-- Stated from the spec's words: `timeDecayFactor` = 1.0 for age ≤ 30
minutes, 0.8 for age ≤ 60 minutes, else 0.5. -/
def spec_time_decay (age_minutes : ℚ) : ℚ :=
  if age_minutes ≤ 30 then 1 else if age_minutes ≤ 60 then 0.8 else 0.5

/-- Stated from the spec's words: the additive-decay impact multiplier —
start at 1.0, add `(severityWeight - 1.0) * timeDecayFactor *
verificationFactor` per matched accident, cap the sum at 2.0. -/
def spec_additive_decay (now : ℚ) (accs : List Accident) : ℚ :=
  min 2 (1 + (accs.map (fun a =>
    (spec_severity_weight a.severity - 1) * spec_time_decay (now - a.timestamp) *
      (if a.verified then 1.2 else 1))).sum)

/-- Stated from the spec's words (§4.4) for comparison with
`get_route_metadata`: here `baseTimeMinutes` is computed from the already
rounded `distanceKm`. -/
def spec_route_metadata (hv : Hv) (waypoints : List (ℚ × ℚ)) (risk_score : ℚ)
    (vehicle_type : String) : ℚ × ℤ :=
  let dk := round2 (total_route_distance hv waypoints)
  let base_time := ⌊dk / 30 * 60⌋
  let sf := (vehicle_lookup vehicle_type).speed_factor
  let tm := ⌊(base_time : ℚ) / sf⌋
  let tm := if risk_score > 60 then ⌊(tm : ℚ) * 1.15⌋ else tm
  (dk, tm)

/-!  ## Theorems  -/

/-- C1 (counterexample): the code's weather table gives `Rain` the
multiplier 1.25, not the 1.20 the claim states. -/
theorem weather_rain_not_claimed_value : ¬ (weather_mult "Rain" = 1.2) := by
  simp [weather_mult, weather_weights, List.lookup]
  norm_num

/-- C1 (amended): the weather multiplier is resolved from the static table
`Clear 1.00`, `Rain 1.25`, `Fog 1.35`, `Heavy Rain 1.6`, and any condition
not in the table defaults to 1.0. -/
theorem weather_mult_table :
    weather_mult "Clear" = 1 ∧ weather_mult "Rain" = 1.25 ∧
    weather_mult "Fog" = 1.35 ∧ weather_mult "Heavy Rain" = 1.6 ∧
    ∀ c : String, c ∉ (["Clear", "Rain", "Fog", "Heavy Rain"] : List String) →
      weather_mult c = 1 := by
  refine ⟨by simp [weather_mult, weather_weights, List.lookup],
    by simp [weather_mult, weather_weights, List.lookup],
    by simp [weather_mult, weather_weights, List.lookup],
    by simp [weather_mult, weather_weights, List.lookup], ?_⟩
  intro c hc
  simp only [List.mem_cons, List.not_mem_nil, or_false, not_or] at hc
  obtain ⟨h1, h2, h3, h4⟩ := hc
  have e1 : (c == "Clear") = false := beq_eq_false_iff_ne.mpr h1
  have e2 : (c == "Rain") = false := beq_eq_false_iff_ne.mpr h2
  have e3 : (c == "Fog") = false := beq_eq_false_iff_ne.mpr h3
  have e4 : (c == "Heavy Rain") = false := beq_eq_false_iff_ne.mpr h4
  simp [weather_mult, weather_weights, List.lookup, e1, e2, e3, e4]

/-- C1 (witness): the table rows evaluate as proved, and the unknown
condition "Snow" defaults to 1.0. -/
theorem weather_mult_table_witness :
    weather_mult "Clear" = 1 ∧ weather_mult "Snow" = 1 :=
  ⟨weather_mult_table.1, weather_mult_table.2.2.2.2 "Snow" (by decide)⟩

/-- C7: reads of the active set evict lazily with a 2-hour TTL — a report
created at `t0` is still listed at `t0 + 119` minutes, is gone at
`t0 + 121` minutes, and no returned report is ever past its expiry
(`timestamp + 120` minutes); the read is exactly the eviction filter. -/
theorem ttl_lazy_expiry :
    (∀ (s : List Accident) (t0 : ℚ) (acc : Accident),
        acc ∈ s → acc.timestamp = t0 → acc ∈ get_active_accidents s (t0 + 119)) ∧
    (∀ (s : List Accident) (t0 : ℚ) (acc : Accident),
        acc.timestamp = t0 → acc ∉ get_active_accidents s (t0 + 121)) ∧
    (∀ (s : List Accident) (now : ℚ) (acc : Accident),
        acc ∈ get_active_accidents s now → now < acc.timestamp + expiry_minutes) ∧
    (∀ (s : List Accident) (now : ℚ),
        get_active_accidents s now = clean_expired s now) := by
  refine ⟨?_, ?_, ?_, fun _ _ => rfl⟩
  · intro s t0 acc hmem ht
    refine List.mem_filter.mpr ⟨hmem, ?_⟩
    simp only [decide_eq_true_eq, ht, expiry_minutes]
    linarith
  · intro s t0 acc ht hmem
    have h := (List.mem_filter.mp hmem).2
    simp only [decide_eq_true_eq, ht, expiry_minutes] at h
    linarith
  · intro s now acc hmem
    have h := (List.mem_filter.mp hmem).2
    simp only [decide_eq_true_eq, expiry_minutes] at h
    simp only [expiry_minutes]
    linarith

/-- C7 (witness): a concrete report with timestamp 0 is listed at minute
119 and absent at minute 121. -/
theorem ttl_lazy_expiry_witness :
    (⟨"a1", 0, 0, 0, "minor", 0, 0, false⟩ : Accident) ∈
        get_active_accidents [⟨"a1", 0, 0, 0, "minor", 0, 0, false⟩] (0 + 119) ∧
    (⟨"a1", 0, 0, 0, "minor", 0, 0, false⟩ : Accident) ∉
        get_active_accidents [⟨"a1", 0, 0, 0, "minor", 0, 0, false⟩] (0 + 121) :=
  ⟨ttl_lazy_expiry.1 _ 0 _ (by simp) rfl, ttl_lazy_expiry.2.1 _ 0 _ rfl⟩

/-- Helper: the dict-with-default severity lookup of the code agrees with
the spec's if-chain severity-weight table at every severity string. -/
theorem severity_weight_eq (sev : String) :
    (severity_weights.lookup sev).getD 1.10 = spec_severity_weight sev := by
  unfold spec_severity_weight
  rcases eq_or_ne sev "minor" with h | h1
  · subst h; simp [severity_weights, List.lookup]
  rcases eq_or_ne sev "moderate" with h | h2
  · subst h; simp [severity_weights, List.lookup]
  rcases eq_or_ne sev "severe" with h | h3
  · subst h; simp [severity_weights, List.lookup]
  rcases eq_or_ne sev "fatal" with h | h4
  · subst h; simp [severity_weights, List.lookup]
  have e1 : (sev == "minor") = false := beq_eq_false_iff_ne.mpr h1
  have e2 : (sev == "moderate") = false := beq_eq_false_iff_ne.mpr h2
  have e3 : (sev == "severe") = false := beq_eq_false_iff_ne.mpr h3
  have e4 : (sev == "fatal") = false := beq_eq_false_iff_ne.mpr h4
  simp [severity_weights, List.lookup, e1, e2, e3, e4, h1, h2, h3, h4]

/-- Helper: every severity weight the code can pick is at least 1. -/
theorem severity_weight_ge_one (sev : String) :
    1 ≤ (severity_weights.lookup sev).getD 1.10 := by
  rw [severity_weight_eq]
  unfold spec_severity_weight
  split_ifs <;> norm_num

/-- Helper: every per-accident impact term is nonnegative. -/
theorem accident_impact_nonneg (now : ℚ) (a : Accident) :
    0 ≤ accident_impact now a := by
  unfold accident_impact
  have h1 := severity_weight_ge_one a.severity
  have h2 : 0 ≤ time_factor (now - a.timestamp) := by
    unfold time_factor; split_ifs <;> norm_num
  have h3 : (0 : ℚ) ≤ if a.verified then 1.2 else 1 := by split_ifs <;> norm_num
  exact mul_nonneg (mul_nonneg (by linarith) h2) h3

/-- Helper: the running-sum fold of `get_accident_impact_multiplier` is
the starting value plus the sum of the impact terms. -/
theorem foldl_add_impact (now : ℚ) :
    ∀ (l : List (Accident × ℚ)) (t : ℚ),
      l.foldl (fun t p => t + accident_impact now p.1) t =
        t + (l.map (fun p => accident_impact now p.1)).sum := by
  intro l
  induction l with
  | nil => intro t; simp
  | cons a l ih => intro t; simp [ih, add_assoc]

/-- C3: `get_accident_impact_multiplier` implements the spec's
additive-decay model (severity weights minor 1.05 / moderate 1.15 /
severe 1.30 / fatal 1.50 / default 1.10, time decay 1.0 / 0.8 / 0.5 at
30 / 60 minutes, verification factor 1.2, additive sum from 1.0 capped at
2.0), and returns exactly 1.0 when no accident matches the route. -/
theorem impact_multiplier_additive_decay :
    ∀ (hv : Hv) (s : List Accident) (now : ℚ) (wps : List (ℚ × ℚ)),
      get_accident_impact_multiplier s now hv wps =
        spec_additive_decay now
          ((get_accidents_on_route s now hv wps 0.5).map Prod.fst) ∧
      (get_accidents_on_route s now hv wps 0.5 = [] →
        get_accident_impact_multiplier s now hv wps = 1) := by
  intro hv s now wps
  have himp : ∀ a : Accident, accident_impact now a =
      (spec_severity_weight a.severity - 1) * spec_time_decay (now - a.timestamp) *
        (if a.verified then 1.2 else 1) := by
    intro a
    unfold accident_impact spec_time_decay time_factor
    rw [severity_weight_eq]
  have hsum : ∀ l : List (Accident × ℚ),
      (l.map (fun p => accident_impact now p.1)).sum =
        ((l.map Prod.fst).map (fun a =>
          (spec_severity_weight a.severity - 1) * spec_time_decay (now - a.timestamp) *
            (if a.verified then 1.2 else 1))).sum := by
    intro l
    rw [List.map_map]
    refine congrArg List.sum ?_
    refine List.map_congr_left ?_
    intro p _
    exact himp p.1
  constructor
  · unfold get_accident_impact_multiplier multiplier_of_matches spec_additive_decay
    rcases eq_or_ne (get_accidents_on_route s now hv wps 0.5) [] with h | h
    · rw [h]
      simp
    · rw [if_neg h, foldl_add_impact, hsum]
  · intro h
    unfold get_accident_impact_multiplier multiplier_of_matches
    simp [h]

/-- C3 (witness): with an empty store nothing matches any route, so the
multiplier is exactly 1, and it agrees with the spec formula there. -/
theorem impact_multiplier_additive_decay_witness :
    get_accident_impact_multiplier [] 0 (fun _ _ _ _ => 1) [(0, 0), (1, 1)] = 1 :=
  (impact_multiplier_additive_decay (fun _ _ _ _ => 1) [] 0 [(0, 0), (1, 1)]).2 rfl

/-- Helper: the aggregated multiplier of a matched list is at least 1. -/
theorem multiplier_of_matches_ge_one (now : ℚ) (l : List (Accident × ℚ)) :
    1 ≤ multiplier_of_matches now l := by
  unfold multiplier_of_matches
  split_ifs with h
  · norm_num
  · refine le_min (by norm_num) ?_
    rw [foldl_add_impact]
    have hnn : 0 ≤ (l.map (fun p => accident_impact now p.1)).sum := by
      refine List.sum_nonneg ?_
      intro x hx
      obtain ⟨p, _, rfl⟩ := List.mem_map.mp hx
      exact accident_impact_nonneg now p.1
    linarith

/-- Helper: the aggregated multiplier of a matched list is at most 2. -/
theorem multiplier_of_matches_le_two (now : ℚ) (l : List (Accident × ℚ)) :
    multiplier_of_matches now l ≤ 2 := by
  unfold multiplier_of_matches
  split_ifs with h
  · norm_num
  · exact min_le_left _ _

/-- C4: the impact multiplier always lies in `[1, 2]`, and the
aggregation is monotone under adding matched accidents (any sublist of a
matched list — same severities, ages and verification flags for the
accidents kept — aggregates to at most the longer list's multiplier),
staying capped at 2. -/
theorem impact_multiplier_bounds_mono :
    (∀ (hv : Hv) (s : List Accident) (now : ℚ) (wps : List (ℚ × ℚ)),
        1 ≤ get_accident_impact_multiplier s now hv wps ∧
        get_accident_impact_multiplier s now hv wps ≤ 2) ∧
    (∀ (now : ℚ) (l₁ l₂ : List (Accident × ℚ)), List.Sublist l₁ l₂ →
        multiplier_of_matches now l₁ ≤ multiplier_of_matches now l₂) := by
  constructor
  · intro hv s now wps
    exact ⟨multiplier_of_matches_ge_one now _, multiplier_of_matches_le_two now _⟩
  · intro now l₁ l₂ hsub
    rcases eq_or_ne l₁ [] with h1 | h1
    · rw [h1]
      unfold multiplier_of_matches
      rw [if_pos rfl]
      exact multiplier_of_matches_ge_one now l₂
    · have h2 : l₂ ≠ [] := by
        intro h
        exact h1 (List.sublist_nil.mp (h ▸ hsub))
      unfold multiplier_of_matches
      rw [if_neg h1, if_neg h2, foldl_add_impact, foldl_add_impact]
      have hmapsub : List.Sublist (l₁.map (fun p => accident_impact now p.1))
          (l₂.map (fun p => accident_impact now p.1)) := hsub.map _
      have hsle : (l₁.map (fun p => accident_impact now p.1)).sum ≤
          (l₂.map (fun p => accident_impact now p.1)).sum := by
        refine hmapsub.sum_le_sum ?_
        intro x hx
        obtain ⟨p, _, rfl⟩ := List.mem_map.mp hx
        exact accident_impact_nonneg now p.1
      exact min_le_min le_rfl (by linarith)

/-- C4 (witness): with an empty store the multiplier of a concrete route
is within `[1, 2]`, and the empty matched list aggregates below a
one-element matched list. -/
theorem impact_multiplier_bounds_mono_witness :
    (1 ≤ get_accident_impact_multiplier [] 0 (fun _ _ _ _ => 1) [(0, 0), (1, 1)] ∧
     get_accident_impact_multiplier [] 0 (fun _ _ _ _ => 1) [(0, 0), (1, 1)] ≤ 2) ∧
    multiplier_of_matches 0 [] ≤
      multiplier_of_matches 0 [(⟨"a1", 0, 0, 0, "fatal", 0, 0, true⟩, 0)] :=
  ⟨impact_multiplier_bounds_mono.1 (fun _ _ _ _ => 1) [] 0 [(0, 0), (1, 1)],
   impact_multiplier_bounds_mono.2 0 [] [(⟨"a1", 0, 0, 0, "fatal", 0, 0, true⟩, 0)]
     (List.nil_sublist _)⟩

/-- Helper: folding the nearest-segment scan from a `some` accumulator
never returns `none`. -/
theorem nearest_scan_some (hv : Hv) (mid : ℚ × ℚ) :
    ∀ (l : List Segment) (x : ℚ × Segment),
      (l.foldl (fun best seg =>
        let d := hv mid.1 mid.2 (seg_mid seg).1 (seg_mid seg).2
        match best with
        | none => some (d, seg)
        | some (md, ns) => if d < md then some (d, seg) else some (md, ns))
        (some x)).isSome := by
  intro l
  induction l with
  | nil => intro x; rfl
  | cons s t ih =>
    intro x
    simp only [List.foldl_cons]
    by_cases hd : hv mid.1 mid.2 (seg_mid s).1 (seg_mid s).2 < x.1
    · simpa [hd] using ih _
    · simpa [hd] using ih _

/-- Helper: a nonempty segment table always yields a nearest segment. -/
theorem nearest_segment_isSome (hv : Hv) (mid : ℚ × ℚ) (segments : List Segment)
    (h : segments ≠ []) : (nearest_segment hv mid segments).isSome := by
  match segments with
  | [] => exact absurd rfl h
  | s :: t =>
    unfold nearest_segment
    simpa using nearest_scan_some hv mid t _

/-- C2 (counterexample): with an empty segment table and combined
multiplier 3.6 (= the accident cap 2.0 × the bike multiplier 1.8 at
clear weather) a leg of length 1 contributes effective adjusted risk
`40 * 3.6 = 144 > 100`, so segmentless legs are not capped at 100. -/
theorem segmentless_leg_uncapped_cex :
    leg_step (fun _ _ _ _ => 1) [] [] 3.6 (0, 0, []) ((0, 0), (1, 0)) =
      (144, 1, []) ∧
    leg_adjusted_risk (fun _ _ _ _ => 1) [] [] 3.6 ((0, 0), (1, 0)) = 144 ∧
    ¬ (leg_adjusted_risk (fun _ _ _ _ => 1) [] [] 3.6 ((0, 0), (1, 0)) ≤ 100) := by
  refine ⟨?_, ?_, ?_⟩
  · simp only [leg_step, nearest_segment, List.foldl_nil]
    norm_num
  · simp only [leg_adjusted_risk, nearest_segment, List.foldl_nil]
    norm_num
  · simp only [leg_adjusted_risk, nearest_segment, List.foldl_nil]
    norm_num

/-- C2 (amended): each leg contributes
`leg_adjusted_risk * leg_length` risk and `leg_length` distance, so a
route always produces a score; a leg with a nearest segment has adjusted
risk `min(100, base_risk * combined_mult) ≤ 100`, and a nearest segment
exists whenever the segment table is nonempty; but a leg with no segment
at all uses the default base risk 40 with NO cap: its adjusted risk is
`40 * combined_mult`, which exceeds 100 whenever `combined_mult > 2.5`. -/
theorem leg_step_risk_spec :
    ∀ (hv : Hv) (segments : List Segment) (risk_scores : List (String × ℚ))
      (mult : ℚ) (st : ℚ × ℚ × List (String × ℚ)) (leg : (ℚ × ℚ) × (ℚ × ℚ)),
      (leg_step hv segments risk_scores mult st leg =
        (st.1 + leg_adjusted_risk hv segments risk_scores mult leg * leg_length hv leg,
         st.2.1 + leg_length hv leg,
         st.2.2 ++ (leg_detail hv segments risk_scores mult leg).toList)) ∧
      (∀ (d : ℚ) (seg : Segment),
        nearest_segment hv ((leg.1.1 + leg.2.1) / 2, (leg.1.2 + leg.2.2) / 2) segments
            = some (d, seg) →
        leg_adjusted_risk hv segments risk_scores mult leg =
            min 100 (base_risk_of risk_scores seg * mult) ∧
        leg_adjusted_risk hv segments risk_scores mult leg ≤ 100) ∧
      (segments = [] →
        leg_adjusted_risk hv segments risk_scores mult leg = 40 * mult) ∧
      (segments ≠ [] →
        ∃ (d : ℚ) (seg : Segment),
          nearest_segment hv ((leg.1.1 + leg.2.1) / 2, (leg.1.2 + leg.2.2) / 2) segments
            = some (d, seg)) := by
  intro hv segments risk_scores mult st leg
  obtain ⟨p, q⟩ := leg
  refine ⟨?_, ?_, ?_, ?_⟩
  · cases hn : nearest_segment hv ((p.1 + q.1) / 2, (p.2 + q.2) / 2) segments with
    | none => simp [leg_step, leg_adjusted_risk, leg_length, leg_detail, hn]
    | some pr =>
      obtain ⟨d, seg⟩ := pr
      simp [leg_step, leg_adjusted_risk, leg_length, leg_detail, hn]
  · intro d seg hn
    constructor
    · simp [leg_adjusted_risk, hn]
    · simp only [leg_adjusted_risk, hn]
      exact min_le_left _ _
  · intro h
    subst h
    simp [leg_adjusted_risk, nearest_segment]
  · intro h
    have hs := nearest_segment_isSome hv ((p.1 + q.1) / 2, (p.2 + q.2) / 2) segments h
    obtain ⟨⟨d, seg⟩, hd⟩ := Option.isSome_iff_exists.mp hs
    exact ⟨d, seg, hd⟩

/-- C2 (witness): at a concrete nonempty segment table the adjusted risk
is the capped value and stays at most 100; at the empty table the
adjusted risk is exactly `40 * mult`. -/
theorem leg_step_risk_spec_witness :
    leg_adjusted_risk (fun _ _ _ _ => 1) [⟨"s1", "Road A", 0, 0, 2, 0⟩]
        [("s1", 80)] 2 ((0, 0), (1, 0)) ≤ 100 ∧
    leg_adjusted_risk (fun _ _ _ _ => 1) [] [("s1", 80)] 2 ((0, 0), (1, 0)) = 40 * 2 := by
  constructor
  · exact ((leg_step_risk_spec (fun _ _ _ _ => 1) [⟨"s1", "Road A", 0, 0, 2, 0⟩]
      [("s1", 80)] 2 (0, 0, []) ((0, 0), (1, 0))).2.1 1 ⟨"s1", "Road A", 0, 0, 2, 0⟩
      (by simp [nearest_segment, seg_mid])).2
  · exact (leg_step_risk_spec (fun _ _ _ _ => 1) [] [("s1", 80)] 2
      (0, 0, []) ((0, 0), (1, 0))).2.2.1 rfl

/-- Helper: the detail list built by the leg fold is the initial list
followed by the per-leg details in traversal order. -/
theorem route_fold_details (hv : Hv) (segments : List Segment)
    (risk_scores : List (String × ℚ)) (mult : ℚ) :
    ∀ (L : List ((ℚ × ℚ) × (ℚ × ℚ))) (t d : ℚ) (dl : List (String × ℚ)),
      (L.foldl (leg_step hv segments risk_scores mult) (t, d, dl)).2.2 =
        dl ++ L.filterMap (leg_detail hv segments risk_scores mult) := by
  intro L
  induction L with
  | nil => intro t d dl; simp
  | cons leg rest ih =>
    intro t d dl
    have hstep := (leg_step_risk_spec hv segments risk_scores mult (t, d, dl) leg).1
    rw [List.foldl_cons, hstep, List.filterMap_cons]
    cases hld : leg_detail hv segments risk_scores mult leg with
    | none => simpa [hld] using ih _ _ _
    | some e => simp [hld, ih _ _ _]

/-- C5: the contributing segment/risk list a route entry serves
(`risk_details[:5]`) has at most 5 entries and is the first-5 prefix of
the per-leg detail list in leg-traversal order — the full `risk_details`
is exactly the traversal-order `filterMap` over the legs, never sorted by
risk. -/
theorem risk_details_top5_traversal :
    ∀ (hv : Hv) (segments : List Segment) (risk_scores : List (String × ℚ))
      (accidents : List Accident) (now : ℚ) (wps : List (ℚ × ℚ))
      (vt wc : String),
      (served_risk_details
          (calculate_route_risk hv segments risk_scores accidents now wps vt wc)).length ≤ 5 ∧
      (calculate_route_risk hv segments risk_scores accidents now wps vt wc).risk_details =
        (legsOf wps).filterMap (leg_detail hv segments risk_scores
          (get_accident_impact_multiplier accidents now hv wps *
            (vehicle_lookup vt).risk_multiplier * weather_mult wc)) ∧
      served_risk_details
          (calculate_route_risk hv segments risk_scores accidents now wps vt wc) =
        ((legsOf wps).filterMap (leg_detail hv segments risk_scores
          (get_accident_impact_multiplier accidents now hv wps *
            (vehicle_lookup vt).risk_multiplier * weather_mult wc))).take 5 := by
  intro hv segments risk_scores accidents now wps vt wc
  have hdet :
      (calculate_route_risk hv segments risk_scores accidents now wps vt wc).risk_details =
        (legsOf wps).filterMap (leg_detail hv segments risk_scores
          (get_accident_impact_multiplier accidents now hv wps *
            (vehicle_lookup vt).risk_multiplier * weather_mult wc)) := by
    show (route_risk_fold hv segments risk_scores _ wps).2.2 = _
    unfold route_risk_fold
    simpa using route_fold_details hv segments risk_scores _ (legsOf wps) 0 0 []
  refine ⟨?_, hdet, ?_⟩
  · simp only [served_risk_details, List.length_take]
    exact min_le_left _ _
  · unfold served_risk_details
    rw [hdet]

/-- C5 (witness): at a concrete one-segment, two-leg route the served
detail list evaluates through the theorem's characterisation. -/
theorem risk_details_top5_traversal_witness :
    (served_risk_details (calculate_route_risk (fun _ _ _ _ => 1)
        [⟨"s1", "Road A", 0, 0, 2, 0⟩] [("s1", 30)] [] 0
        [(0, 0), (1, 0), (2, 0)] "car" "Clear")).length ≤ 5 :=
  (risk_details_top5_traversal (fun _ _ _ _ => 1) [⟨"s1", "Road A", 0, 0, 2, 0⟩]
    [("s1", 30)] [] 0 [(0, 0), (1, 0), (2, 0)] "car" "Clear").1

/-- Helper: `vote_accident` leaves a non-matching head in place and
recurses. -/
theorem vote_cons_ne (a : Accident) (rest : List Accident) (i vt : String)
    (ha : (a.id == i) = false) :
    vote_accident (a :: rest) i vt =
      (a :: (vote_accident rest i vt).1, (vote_accident rest i vt).2) := by
  simp [vote_accident, ha]

/-- Helper: `vote_accident` at a matching head applies the vote and
branches on the auto-remove threshold. -/
theorem vote_cons_eq (acc : Accident) (rest : List Accident) (vt : String) :
    vote_accident (acc :: rest) acc.id vt =
      (if 5 ≤ (apply_vote acc vt).downvotes then
        ((apply_vote acc vt :: rest).filter (fun a => !(a.id == acc.id)), true)
      else (apply_vote acc vt :: rest, true)) := by
  simp [vote_accident]

/-- Helper: `vote_accident` walks past a prefix that does not carry the
requested id. -/
theorem vote_skip (i vt : String) :
    ∀ (pre rest : List Accident), (∀ b ∈ pre, (b.id == i) = false) →
      vote_accident (pre ++ rest) i vt =
        (pre ++ (vote_accident rest i vt).1, (vote_accident rest i vt).2) := by
  intro pre
  induction pre with
  | nil => intro rest _; simp
  | cons a pre ih =>
    intro rest h
    have ha := h a (by simp)
    have htail : ∀ b ∈ pre, (b.id == i) = false := fun b hb => h b (by simp [hb])
    rw [List.cons_append, vote_cons_ne a (pre ++ rest) i vt ha, ih rest htail]
    simp

/-- Helper: a vote on an id no stored report carries fails and is a
no-op. -/
theorem vote_not_found (i vt : String) :
    ∀ (s : List Accident), (∀ a ∈ s, (a.id == i) = false) →
      vote_accident s i vt = (s, false) := by
  intro s
  induction s with
  | nil => intro _; rfl
  | cons a rest ih =>
    intro h
    have ha := h a (by simp)
    have htail : ∀ b ∈ rest, (b.id == i) = false := fun b hb => h b (by simp [hb])
    rw [vote_cons_ne a rest i vt ha, ih htail]

/-- Helper: the effect of an up-vote on one report. -/
theorem apply_vote_up (acc : Accident) :
    (apply_vote acc "up").id = acc.id ∧
    (apply_vote acc "up").upvotes = acc.upvotes + 1 ∧
    (apply_vote acc "up").downvotes = acc.downvotes ∧
    ((apply_vote acc "up").verified = true ↔
      3 ≤ acc.upvotes + 1 ∨ acc.verified = true) := by
  unfold apply_vote
  by_cases h : 3 ≤ acc.upvotes + 1 ∧ acc.verified = false
  · rw [if_pos (by simpa using h)]
    refine ⟨rfl, rfl, rfl, ?_⟩
    simp [h.1]
  · rw [if_neg (by simpa using h)]
    refine ⟨rfl, rfl, rfl, ?_⟩
    cases hb : acc.verified
    · rw [hb] at h
      simp only [and_true] at h
      simp [h]
    · simp

/-- Helper: the effect of a down-vote on one report that satisfies the
reachable-state invariant. -/
theorem apply_vote_down (acc : Accident) (hwf : ReportWF acc) :
    (apply_vote acc "down").id = acc.id ∧
    (apply_vote acc "down").upvotes = acc.upvotes ∧
    (apply_vote acc "down").downvotes = acc.downvotes + 1 ∧
    (apply_vote acc "down").verified = acc.verified := by
  unfold apply_vote
  have hno : ¬ (3 ≤ acc.upvotes ∧ acc.verified = false) := by
    rintro ⟨h1, h2⟩
    rw [hwf.1 h1] at h2
    exact absurd h2 (by simp)
  rw [if_neg (by simpa using hno)]
  simp

/-- Helper: a vote type that is neither `"up"` nor `"down"` leaves a
reachable report untouched. -/
theorem apply_vote_other (acc : Accident) (vt : String)
    (hup : (vt == "up") = false) (hdown : (vt == "down") = false)
    (hwf : ReportWF acc) : apply_vote acc vt = acc := by
  unfold apply_vote
  have hno : ¬ (3 ≤ acc.upvotes ∧ acc.verified = false) := by
    rintro ⟨h1, h2⟩
    rw [hwf.1 h1] at h2
    exact absurd h2 (by simp)
  simp only [hup, hdown, Bool.false_eq_true, if_false]
  rw [if_neg hno]

/-- C6: on a stored (API-reachable) report, an up-vote increments
`upvotes`, verifies the report exactly as soon as `upvotes >= 3` and
never un-verifies it; a down-vote increments `downvotes` and, once they
reach 5, deletes every copy of the report while still returning success;
and a vote on an id that is not stored returns false and changes no
state. -/
theorem vote_accident_spec :
    (∀ (pre post : List Accident) (acc : Accident),
        (∀ b ∈ pre, (b.id == acc.id) = false) → ReportWF acc →
        vote_accident (pre ++ acc :: post) acc.id "up" =
          (pre ++ apply_vote acc "up" :: post, true) ∧
        (apply_vote acc "up").upvotes = acc.upvotes + 1 ∧
        (apply_vote acc "up").downvotes = acc.downvotes ∧
        ((apply_vote acc "up").verified = true ↔
          3 ≤ acc.upvotes + 1 ∨ acc.verified = true)) ∧
    (∀ (pre post : List Accident) (acc : Accident),
        (∀ b ∈ pre, (b.id == acc.id) = false) → ReportWF acc →
        (acc.downvotes + 1 < 5 →
          vote_accident (pre ++ acc :: post) acc.id "down" =
            (pre ++ apply_vote acc "down" :: post, true) ∧
          (apply_vote acc "down").downvotes = acc.downvotes + 1 ∧
          (apply_vote acc "down").verified = acc.verified) ∧
        (5 ≤ acc.downvotes + 1 →
          (vote_accident (pre ++ acc :: post) acc.id "down").2 = true ∧
          ∀ a ∈ (vote_accident (pre ++ acc :: post) acc.id "down").1,
            (a.id == acc.id) = false)) ∧
    (∀ (s : List Accident) (i vt : String),
        (∀ a ∈ s, (a.id == i) = false) →
        vote_accident s i vt = (s, false)) := by
  refine ⟨?_, ?_, ?_⟩
  · intro pre post acc hpre hwf
    obtain ⟨hid, hup, hdown, hver⟩ := apply_vote_up acc
    refine ⟨?_, hup, hdown, hver⟩
    rw [vote_skip acc.id "up" pre (acc :: post) hpre, vote_cons_eq]
    have hd5 : ¬ 5 ≤ (apply_vote acc "up").downvotes := by
      rw [hdown]
      have := hwf.2
      omega
    rw [if_neg hd5]
  · intro pre post acc hpre hwf
    obtain ⟨hid, hup, hdown, hver⟩ := apply_vote_down acc hwf
    constructor
    · intro hlt
      refine ⟨?_, hdown, hver⟩
      rw [vote_skip acc.id "down" pre (acc :: post) hpre, vote_cons_eq]
      have hd5 : ¬ 5 ≤ (apply_vote acc "down").downvotes := by
        rw [hdown]; omega
      rw [if_neg hd5]
    · intro hge
      rw [vote_skip acc.id "down" pre (acc :: post) hpre, vote_cons_eq]
      have hd5 : 5 ≤ (apply_vote acc "down").downvotes := by
        rw [hdown]; omega
      rw [if_pos hd5]
      refine ⟨rfl, ?_⟩
      intro a ha
      simp only [List.mem_append] at ha
      rcases ha with ha | ha
      · exact hpre a ha
      · have := List.of_mem_filter ha
        simpa using this
  · exact fun s i vt h => vote_not_found i vt s h

/-- C6 (witness): a concrete report at 2 upvotes becomes verified on the
third up-vote; a concrete report at 4 downvotes is deleted by the fifth
down-vote with the call still succeeding; voting on an absent id fails
and leaves the store unchanged. -/
theorem vote_accident_spec_witness :
    vote_accident [⟨"a1", 0, 0, 0, "minor", 2, 0, false⟩] "a1" "up" =
      ([apply_vote ⟨"a1", 0, 0, 0, "minor", 2, 0, false⟩ "up"], true) ∧
    ((apply_vote (⟨"a1", 0, 0, 0, "minor", 2, 0, false⟩ : Accident) "up").verified = true ↔
      3 ≤ 2 + 1 ∨ False) ∧
    (vote_accident [⟨"a2", 0, 0, 0, "minor", 0, 4, false⟩] "a2" "down").2 = true ∧
    (∀ a ∈ (vote_accident [⟨"a2", 0, 0, 0, "minor", 0, 4, false⟩] "a2" "down").1,
      (a.id == "a2") = false) ∧
    vote_accident [⟨"a1", 0, 0, 0, "minor", 2, 0, false⟩] "zz" "up" =
      ([⟨"a1", 0, 0, 0, "minor", 2, 0, false⟩], false) := by
  have h1 := (vote_accident_spec.1 [] []
    ⟨"a1", 0, 0, 0, "minor", 2, 0, false⟩ (by simp) (by constructor <;> simp))
  have h2 := (vote_accident_spec.2.1 [] []
    ⟨"a2", 0, 0, 0, "minor", 0, 4, false⟩ (by simp) (by constructor <;> simp)).2
    (by norm_num)
  have h3 := vote_accident_spec.2.2 [⟨"a1", 0, 0, 0, "minor", 2, 0, false⟩] "zz" "up"
    (by simp)
  refine ⟨by simpa using h1.1, ?_, by simpa using h2.1, ?_, by simpa using h3⟩
  · have := h1.2.2.2
    simpa using this
  · intro a ha
    exact h2.2 a (by simpa using ha)

/-- C10: calling `vote_accident` on a stored report with a vote type that
is neither `"up"` nor `"down"` still returns success but changes nothing:
no counter moves, the verified flag is untouched, and nothing is
deleted. -/
theorem invalid_vote_type_noop :
    ∀ (pre post : List Accident) (acc : Accident) (vt : String),
      (vt == "up") = false → (vt == "down") = false →
      (∀ b ∈ pre, (b.id == acc.id) = false) → ReportWF acc →
      vote_accident (pre ++ acc :: post) acc.id vt = (pre ++ acc :: post, true) := by
  intro pre post acc vt hup hdown hpre hwf
  rw [vote_skip acc.id vt pre (acc :: post) hpre, vote_cons_eq]
  have hav : apply_vote acc vt = acc := apply_vote_other acc vt hup hdown hwf
  have hd5 : ¬ 5 ≤ (apply_vote acc vt).downvotes := by
    rw [hav]
    have := hwf.2
    omega
  rw [if_neg hd5, hav]

/-- C10 (witness): a concrete vote type `"sideways"` on a stored report
succeeds and leaves the store exactly as it was. -/
theorem invalid_vote_type_noop_witness :
    vote_accident [⟨"a1", 0, 0, 0, "minor", 2, 1, false⟩] "a1" "sideways" =
      ([⟨"a1", 0, 0, 0, "minor", 2, 1, false⟩], true) := by
  simpa using invalid_vote_type_noop [] [] ⟨"a1", 0, 0, 0, "minor", 2, 1, false⟩
    "sideways" (by decide) (by decide) (by simp) (by constructor <;> simp)

/-- Helper: the inner leg scan returns `some d` exactly when the legs
split as strictly-too-far prefix, first matching leg, rest — and `d` is
that first matching leg's rounded distance. -/
theorem first_leg_match_eq_some_iff (hv : Hv) (b : ℚ) (acc : Accident) :
    ∀ (L : List ((ℚ × ℚ) × (ℚ × ℚ))) (d : ℚ),
      first_leg_match hv b acc L = some d ↔
        ∃ pre leg post, L = pre ++ leg :: post ∧
          (∀ l ∈ pre, b < leg_route_dist hv acc l) ∧
          leg_route_dist hv acc leg ≤ b ∧
          d = round2 (leg_route_dist hv acc leg) := by
  intro L
  induction L with
  | nil =>
    intro d
    constructor
    · intro h
      exact absurd h (by simp [first_leg_match])
    · rintro ⟨pre, leg, post, heq, -, -, -⟩
      exact absurd heq (by simp)
  | cons leg0 rest ih =>
    intro d
    by_cases hle : leg_route_dist hv acc leg0 ≤ b
    · rw [show first_leg_match hv b acc (leg0 :: rest) =
          some (round2 (leg_route_dist hv acc leg0)) from by
        simp [first_leg_match, hle]]
      constructor
      · intro h
        exact ⟨[], leg0, rest, by simp, by simp, hle, (Option.some_inj.mp h).symm⟩
      · rintro ⟨pre, leg, post, heq, hpre, hlg, hd⟩
        cases pre with
        | nil =>
          simp only [List.nil_append, List.cons.injEq] at heq
          obtain ⟨h1, h2⟩ := heq
          subst h1
          rw [hd]
        | cons a pre2 =>
          simp only [List.cons_append, List.cons.injEq] at heq
          obtain ⟨h1, h2⟩ := heq
          subst h1
          have hgt := hpre leg0 (by simp)
          exact absurd hle (not_le.mpr hgt)
    · rw [show first_leg_match hv b acc (leg0 :: rest) =
          first_leg_match hv b acc rest from by
        simp [first_leg_match, hle]]
      rw [ih d]
      constructor
      · rintro ⟨pre, leg, post, heq, hpre, hlg, hd⟩
        refine ⟨leg0 :: pre, leg, post, by rw [heq, List.cons_append], ?_, hlg, hd⟩
        intro l hl
        rcases List.mem_cons.mp hl with rfl | hl
        · exact not_le.mp hle
        · exact hpre l hl
      · rintro ⟨pre, leg, post, heq, hpre, hlg, hd⟩
        cases pre with
        | nil =>
          simp only [List.nil_append, List.cons.injEq] at heq
          obtain ⟨h1, h2⟩ := heq
          subst h1
          exact absurd hlg hle
        | cons a pre2 =>
          simp only [List.cons_append, List.cons.injEq] at heq
          obtain ⟨h1, h2⟩ := heq
          subst h1
          exact ⟨pre2, leg, post, h2, fun l hl => hpre l (by simp [hl]), hlg, hd⟩

/-- C8: an active report is included (annotated with distance `d`) exactly
when some leg is within the buffer, the annotation is the FIRST such
leg's distance — every earlier leg being strictly outside the buffer, so
first-match wins, not the minimum over all legs — and the buffer
parameter defaults to 0.5 km. -/
theorem accidents_on_route_first_match :
    ∀ (hv : Hv) (s : List Accident) (now buf : ℚ) (wps : List (ℚ × ℚ))
      (acc : Accident) (d : ℚ),
      ((acc, d) ∈ get_accidents_on_route s now hv wps buf ↔
        acc ∈ get_active_accidents s now ∧
        ∃ pre leg post, legsOf wps = pre ++ leg :: post ∧
          (∀ l ∈ pre, buf < leg_route_dist hv acc l) ∧
          leg_route_dist hv acc leg ≤ buf ∧
          d = round2 (leg_route_dist hv acc leg)) ∧
      get_accidents_on_route s now hv wps = get_accidents_on_route s now hv wps 0.5 := by
  intro hv s now buf wps acc d
  refine ⟨?_, rfl⟩
  unfold get_accidents_on_route
  rw [List.mem_filterMap]
  constructor
  · rintro ⟨a, ha, hfa⟩
    rw [Option.map_eq_some'] at hfa
    obtain ⟨d', hd', heq⟩ := hfa
    have hpair : a = acc ∧ d' = d := by
      simpa using heq
    obtain ⟨rfl, rfl⟩ := hpair
    exact ⟨ha, (first_leg_match_eq_some_iff hv buf a (legsOf wps) d').mp hd'⟩
  · rintro ⟨ha, hex⟩
    refine ⟨acc, ha, ?_⟩
    rw [(first_leg_match_eq_some_iff hv buf acc (legsOf wps) d).mpr hex]
    rfl

/-- C8 (witness): with the distance function constantly 0, a concrete
active report is matched on the first leg of a two-point route with
annotated distance `round2 0 = 0`. -/
theorem accidents_on_route_first_match_witness :
    ((⟨"a1", 0, 0, 0, "minor", 0, 0, false⟩ : Accident), (0 : ℚ)) ∈
      get_accidents_on_route [⟨"a1", 0, 0, 0, "minor", 0, 0, false⟩] 0
        (fun _ _ _ _ => 0) [(0, 0), (1, 0)] 0.5 := by
  refine ((accidents_on_route_first_match (fun _ _ _ _ => 0)
      [⟨"a1", 0, 0, 0, "minor", 0, 0, false⟩] 0 0.5 [(0, 0), (1, 0)]
      ⟨"a1", 0, 0, 0, "minor", 0, 0, false⟩ 0).1).mpr ⟨?_, ?_⟩
  · refine List.mem_filter.mpr ⟨by simp, ?_⟩
    simp only [expiry_minutes, decide_eq_true_eq]
    norm_num
  · refine ⟨[], ((0, 0), (1, 0)), [], by simp [legsOf], by simp, ?_, ?_⟩
    · simp only [leg_route_dist, point_to_segment_distance]
      norm_num
    · simp only [leg_route_dist, point_to_segment_distance]
      norm_num [round2]

/-- Helper: Python `int()` agrees with floor on nonnegative values. -/
theorem py_int_of_nonneg (x : ℚ) (h : 0 ≤ x) : py_int x = ⌊x⌋ := by
  unfold py_int
  rw [if_neg (not_lt.mpr h)]

/-- Helper: the `car` fallback row of the vehicle table. -/
theorem vehicle_lookup_car : vehicle_lookup "car" = ⟨1, 1⟩ := by
  simp [vehicle_lookup, VEHICLE_TYPES, List.lookup]

/-- Helper: every speed factor the vehicle lookup can return is
positive. -/
theorem vehicle_speed_factor_pos (vt : String) :
    0 < (vehicle_lookup vt).speed_factor := by
  unfold vehicle_lookup VEHICLE_TYPES
  cases h1 : (vt == "car") with
  | true => simp [List.lookup, h1]
  | false =>
  cases h2 : (vt == "bike") with
  | true => simp [List.lookup, h1, h2]; norm_num
  | false =>
  cases h3 : (vt == "auto") with
  | true => simp [List.lookup, h1, h2, h3]; norm_num
  | false =>
  cases h4 : (vt == "bus") with
  | true => simp [List.lookup, h1, h2, h3, h4]; norm_num
  | false =>
  cases h5 : (vt == "truck") with
  | true => simp [List.lookup, h1, h2, h3, h4, h5]; norm_num
  | false => simp [List.lookup, h1, h2, h3, h4, h5]

/-- C9 (counterexample): with a leg-distance sum of 0.499 km the code
computes `time_minutes = int(0.499 / 30 * 60) = 0` from the unrounded
distance, while the claim's formula — `baseTimeMinutes` from the
2-decimal-rounded `distanceKm = 0.5` — yields
`floor(0.5 / 30 * 60) = 1`. -/
theorem route_metadata_rounding_cex :
    (get_route_metadata (fun _ _ _ _ => 499/1000) [(0, 0), (0, 1)] 0 "car").2 = 0 ∧
    (spec_route_metadata (fun _ _ _ _ => 499/1000) [(0, 0), (0, 1)] 0 "car").2 = 1 := by
  have htd : total_route_distance (fun _ _ _ _ => 499/1000) [(0, 0), (0, 1)] =
      499/1000 := by
    simp [total_route_distance, legsOf]
  constructor
  · simp only [get_route_metadata, htd, vehicle_lookup_car]
    norm_num [py_int]
  · simp only [spec_route_metadata, htd, vehicle_lookup_car]
    norm_num [round2, round_eq]

/-- C9 (amended): when the leg-distance sum is nonnegative (every real
haversine distance is), `get_route_metadata` reports the 2-decimal-rounded
distance but computes `baseTimeMinutes = floor(totalDistance / 30 * 60)`
from the UNROUNDED total, then `timeMinutes = floor(baseTimeMinutes /
speedFactor)` with the vehicle table's speed factor, applying
`floor(timeMinutes * 1.15)` exactly when `riskScore > 60`; an unknown
vehicle type falls back to the `car` row, whose speed factor is 1.0. -/
theorem route_metadata_spec :
    ∀ (hv : Hv) (wps : List (ℚ × ℚ)) (rs : ℚ) (vt : String),
      (0 ≤ total_route_distance hv wps →
        get_route_metadata hv wps rs vt =
          (round2 (total_route_distance hv wps),
           if rs > 60 then
             ⌊(⌊(⌊total_route_distance hv wps / 30 * 60⌋ : ℚ) /
                 (vehicle_lookup vt).speed_factor⌋ : ℚ) * 1.15⌋
           else
             ⌊(⌊total_route_distance hv wps / 30 * 60⌋ : ℚ) /
               (vehicle_lookup vt).speed_factor⌋)) ∧
      (VEHICLE_TYPES.lookup vt = none →
        vehicle_lookup vt = ⟨1, 1⟩ ∧
        get_route_metadata hv wps rs vt = get_route_metadata hv wps rs "car") := by
  intro hv wps rs vt
  constructor
  · intro htd
    have hsf := vehicle_speed_factor_pos vt
    have h1 : 0 ≤ total_route_distance hv wps / 30 * 60 := by positivity
    have h2 : 0 ≤ ((⌊total_route_distance hv wps / 30 * 60⌋ : ℚ) /
        (vehicle_lookup vt).speed_factor) := by
      have : (0 : ℚ) ≤ (⌊total_route_distance hv wps / 30 * 60⌋ : ℚ) := by
        exact_mod_cast Int.floor_nonneg.mpr h1
      positivity
    have h3 : 0 ≤ ((⌊(⌊total_route_distance hv wps / 30 * 60⌋ : ℚ) /
        (vehicle_lookup vt).speed_factor⌋ : ℚ) * 1.15) := by
      have : (0 : ℚ) ≤ (⌊(⌊total_route_distance hv wps / 30 * 60⌋ : ℚ) /
          (vehicle_lookup vt).speed_factor⌋ : ℚ) := by
        exact_mod_cast Int.floor_nonneg.mpr h2
      positivity
    simp only [get_route_metadata, py_int_of_nonneg _ h1, py_int_of_nonneg _ h2]
    split_ifs with hrs
    · rw [py_int_of_nonneg _ h3]
    · rfl
  · intro hnone
    have hlk : vehicle_lookup vt = ⟨1, 1⟩ := by
      unfold vehicle_lookup
      rw [hnone]
      rfl
    refine ⟨hlk, ?_⟩
    simp only [get_route_metadata, hlk, vehicle_lookup_car]

/-- C9 (witness): a route whose single leg measures exactly 1 km with the
`car` profile and low risk takes `floor(1/30*60) = 2` minutes and reports
1.0 km. -/
theorem route_metadata_spec_witness :
    get_route_metadata (fun _ _ _ _ => 1) [(0, 0), (0, 1)] 0 "car" = (1, 2) := by
  have htd : total_route_distance (fun _ _ _ _ => 1) [(0, 0), (0, 1)] = 1 := by
    simp [total_route_distance, legsOf]
  have h := (route_metadata_spec (fun _ _ _ _ => 1) [(0, 0), (0, 1)] 0 "car").1
    (by rw [htd]; norm_num)
  rw [h, htd, vehicle_lookup_car]
  norm_num [round2, round_eq]

end AccidentSystem
